import Mathlib

/-
Verification of the timeline-reconstruction and identity-resolution engine of
codeface-extraction (src/issue_processing/issue_processing.py and
src/issue_processing/jira_issue_processing.py).

Shallow embedding conventions, argued once here and referenced below:

* Timestamps.  Every timestamp flowing through the pipeline is first pushed
  through `format_time`, which renders it in the canonical "%Y-%m-%d %H:%M:%S"
  format or as the empty string "" (for empty/None input).  On canonical
  strings of this shape, Python's string comparison agrees with chronological
  comparison, and "" compares lexicographically before every canonical date
  string.  We therefore model a pipeline timestamp as `Option Int`
  (`none` = the empty string "", `some t` = a canonical date string), with the
  order `timeLe` placing `none` first.  The model's inputs are raw records
  whose timestamps are already parseable-or-empty (an unparsable timestamp
  makes the Python run abort inside `format_time`; that failure mode is
  modelled separately by `format_time` below over genuine strings).

* Failure.  Python exceptions (TypeError on subscripting None, KeyError on a
  missing dict key, ValueError from list.remove or strptime) abort the run;
  fallible steps return `Option`, `none` meaning the run aborts.

* Python reference semantics.  `reformat_events` executes
  `event["event_info_2"] = issue["resolution"]` for a commented event: the
  event stores a REFERENCE to the issue's mutable resolution list, which later
  `append`/`remove` calls mutate in place (the list object is created once, in
  `reformat_issues`, and never rebound).  Serialization (`print_to_disk`,
  `json.dumps`) happens only after `reformat_events` has finished, so the
  value observed for such a stamp is the FINAL resolution list of the issue.
  We model the stamp with the marker `Val.resAlias` and substitute the final
  resolution list after the per-issue pass (`resolveAlias`), which is
  observationally equivalent to the Python aliasing.

* Python's `for event in issue["eventsList"]` in `reformat_events` iterates by
  index over a list that grows at its end (synthesized type/resolution events
  are appended during iteration).  Hence the loop processes all original
  events in order, then all synthesized events in order of synthesis.
  Synthesized events have kind "type_updated"/"resolution_updated", for which
  the loop body synthesizes nothing further (theorem
  `runEvents_synth_no_more`), so the iteration stops after the second wave.
  `reformatIssue` below therefore runs exactly two waves.

The model covers steps 2-4 of `run()` in issue_processing.py
(`reformat_issues`, `merge_issue_events`, `reformat_events`), which produce
the per-issue timelines; `insert_user_data` (external identity service) is
modelled separately for the identity-cache claims, and the `print_to_disk`
row deduplication is modelled separately as well.
-/

set_option maxRecDepth 4000

namespace Codeface

/-- Pipeline timestamps: `none` is Python's empty string "", `some t` a
canonical "%Y-%m-%d %H:%M:%S" string (string order = chronological order). -/
abbrev Time := Option Int

/-- The order induced on timestamps by Python string comparison of canonical
date strings: the empty string sorts before every date. -/
def timeLe : Time → Time → Bool
  | none, _ => true
  | some _, none => false
  | some a, some b => decide (a ≤ b)

/-- Python `str.lower()`, written over the character list so that it
reduces inside the kernel (it agrees with `String.toLower`). -/
def strToLower (s : String) : String := String.mk (s.data.map Char.toLower)

/-- Stable insertion: models the placement discipline of Python's stable
`sorted` (an element moves before the first entry it is `le`-below-or-equal,
so elements with equal keys keep their original relative order). -/
def insertLe (le : α → α → Bool) (a : α) : List α → List α
  | [] => [a]
  | b :: l => if le a b then a :: b :: l else b :: insertLe le a l

/-- Stable sort by the boolean relation `le`; agrees with Python's stable
`sorted(xs, key=...)` for total transitive `le`. -/
def sortLe (le : α → α → Bool) : List α → List α
  | [] => []
  | a :: l => insertLe le a (sortLe le l)

/-- `List.mapM` specialized to `Option`, written structurally so that concrete
inputs evaluate by `decide`/`rfl` and induction is direct. -/
def optMapM (f : α → Option β) : List α → Option (List β)
  | [] => some []
  | a :: l =>
    match f a with
    | none => none
    | some b =>
      match optMapM f l with
      | none => none
      | some bs => some (b :: bs)

/-- A raw identity triple as it appears in the JSON data: each of the three
fields may be Python `None`. -/
structure User where
  name : Option String
  username : Option String
  email : Option String
deriving DecidableEq

/-- Values held by the free-form `event_info_1`/`event_info_2` slots: strings,
issue numbers, lists (e.g. the `[]` stored on a created event), and the marker
`resAlias` for a stored reference to the issue's mutable resolution list (see
the header comment; the reference is resolved to the final list by
`resolveAlias` before the timeline is observed). -/
inductive Val where
  | vs (s : String)
  | vn (n : Int)
  | vl (l : List String)
  | resAlias
deriving DecidableEq

/-- The `ref_target` slot holds the string `""`, Python `None`, or a user
dict. -/
inductive RefTarget where
  | empty
  | null
  | usr (u : User)
deriving DecidableEq

/-- A commit reference attached to an event (hash plus optional author). -/
structure Commit where
  hash : String
  author : Option User
deriving DecidableEq

/-- The common event shape: the dict fields read or written by
`merge_issue_events` / `reformat_events`.  Python dicts carry only the keys
relevant to their kind; fields that a given kind never touches are left at
the defaults of `baseEvent` and never read for that kind. -/
structure Event where
  event : String
  user : Option User
  created_at : Time
  info1 : Val
  info2 : Val
  ref_target : RefTarget
  commit : Option Commit
  requestedReviewer : RefTarget
  assigner : Option User
  label : String
  reviewId : Int
  state : String
  dismissalMessage : Option String
deriving DecidableEq

/-- Default field values for events; individual constructors override the
fields the Python code actually sets. -/
def baseEvent : Event :=
  { event := "", user := none, created_at := none, info1 := Val.vs "",
    info2 := Val.vs "", ref_target := RefTarget.empty, commit := none,
    requestedReviewer := RefTarget.null, assigner := none, label := "",
    reviewId := 0, state := "", dismissalMessage := none }

/-- One entry of `commentsList` (also used for review comments): the fields
the code reads before adapting it to the event format. -/
structure RawComment where
  user : Option User
  referenced_at : Time
deriving DecidableEq

/-- One entry of `relatedIssues`. -/
structure RawRelIssue where
  number : Int
  referenced_at : Time
  user : Option User
deriving DecidableEq

/-- One entry of `relatedCommits`. -/
structure RawRelCommit where
  type : String
  referenced_at : Time
  commit : Commit
  user : Option User
deriving DecidableEq

/-- One entry of `reviewsList`. -/
structure RawReview where
  user : Option User
  submitted_at : Time
  state : String
  reviewId : Int
  hasReviewInitialComment : Bool
  reviewComments : List RawComment
deriving DecidableEq

/-- A GitHub issue as loaded from issues.json, before `reformat_issues`:
the event/comment/commit/review lists may be JSON `null` (`none`), and
`relatedIssues` may be missing entirely (also `none`; the code treats both
as the empty list).  `created_at`/`closed_at` are already in `Time` form per
the header comment (`closed_at = none` covers both JSON null and ""). -/
structure RawIssue where
  number : Int
  title : String
  user : Option User
  created_at : Time
  closed_at : Time
  isPullRequest : Bool
  eventsList : Option (List Event)
  commentsList : Option (List RawComment)
  relatedCommits : Option (List RawRelCommit)
  reviewsList : Option (List RawReview)
  relatedIssues : Option (List RawRelIssue)
deriving DecidableEq

/-- An issue after `reformat_issues`: lists defaulted, `type` seeded from the
pull-request flag, `resolution` emptied. -/
structure Issue0 where
  number : Int
  title : String
  user : Option User
  created_at : Time
  closed_at : Time
  type : List String
  resolution : List String
  eventsList : List Event
  commentsList : List RawComment
  relatedCommits : List RawRelCommit
  reviewsList : List RawReview
  relatedIssues : List RawRelIssue
deriving DecidableEq

/-- `reformat_issues` body for one issue (issue_processing.py lines 205-260):
default missing lists to `[]`, default a missing close date, normalize the
two issue timestamps (identity on the `Time` model), and seed the type list
from the pull-request flag. -/
def reformatIssue0 (i : RawIssue) : Issue0 :=
  { number := i.number, title := i.title, user := i.user,
    created_at := i.created_at, closed_at := i.closed_at,
    type := [if i.isPullRequest then "pull request" else "issue"],
    resolution := [],
    eventsList := i.eventsList.getD [],
    commentsList := i.commentsList.getD [],
    relatedCommits := i.relatedCommits.getD [],
    reviewsList := i.reviewsList.getD [],
    relatedIssues := i.relatedIssues.getD [] }

def reformat_issues (l : List RawIssue) : List Issue0 := l.map reformatIssue0

/-- An issue after `merge_issue_events`: a single merged `eventsList` plus the
running state seeded to "open". -/
structure MIssue where
  number : Int
  title : String
  user : Option User
  created_at : Time
  closed_at : Time
  type : List String
  resolution : List String
  state_new : String
  eventsList : List Event
deriving DecidableEq

/-- The comment cache `comments`: a Python dict keyed by formatted timestamp;
insertion replaces the previous entry for the key. -/
abbrev Cache := List (Time × Event)

def cacheInsert (c : Cache) (k : Time) (v : Event) : Cache :=
  if c.any (fun p => decide (p.1 = k)) then
    c.map (fun p => if p.1 = k then (k, v) else p)
  else c ++ [(k, v)]

def cacheLookup (c : Cache) (k : Time) : Option Event :=
  (c.find? (fun p => decide (p.1 = k))).map (fun p => p.2)

def cacheAddAll (c : Cache) (evs : List Event) : Cache :=
  evs.foldl (fun acc e => cacheInsert acc e.created_at e) c

/-- Adapting one comment to the event format (lines 354-364 and the review
comment loop): kind "commented", empty ref target and info slots. -/
def adaptComment (c : RawComment) : Event :=
  { baseEvent with
    event := "commented", user := c.user, created_at := c.referenced_at }

/-- The synthetic creation event (lines 281-288). -/
def createdEvent (i : Issue0) : Event :=
  { baseEvent with
    event := "created", user := i.user, created_at := i.created_at,
    info1 := Val.vs "open", info2 := Val.vl [] }

/-- The synthetic creation comment (lines 290-299). -/
def creationComment (i : Issue0) : Event :=
  { baseEvent with
    event := "commented", user := i.user, created_at := i.created_at }

/-- A related issue turned into an outbound `add_link` event (lines 302-307). -/
def relIssueEvent (r : RawRelIssue) : Event :=
  { baseEvent with
    event := "add_link", user := r.user, created_at := r.referenced_at,
    info1 := Val.vn r.number, info2 := Val.vs "issue" }

/-- The `referenced_by` event queued for the TARGET issue of a related-issue
link (lines 311-317): its payload `event_info_1` is the LINKING issue's
number. -/
def mkReferencedBy (issueNumber : Int) (r : RawRelIssue) : Event :=
  { baseEvent with
    event := "referenced_by", user := r.user, created_at := r.referenced_at,
    info1 := Val.vn issueNumber, info2 := Val.vs "issue" }

/-- A related commit turned into an event (lines 331-351). -/
def relCommitEvent (r : RawRelCommit) : Event :=
  let base := { baseEvent with
    user := r.user, created_at := r.referenced_at,
    info1 := Val.vs r.commit.hash, commit := some r.commit }
  if r.type = "commitAddedToPullRequest" then { base with event := "commit_added" }
  else if r.type = "commitMentionedInIssue" then
    { base with event := "add_link", info2 := Val.vs "commit" }
  else { base with event := "referenced_by", info2 := Val.vs "commit" }

/-- A review turned into a `reviewed` event (lines 367-372); keeps the review
id so a later `review_dismissed` event can find and overwrite it. -/
def reviewEvent (r : RawReview) : Event :=
  { baseEvent with
    event := "reviewed", user := r.user, created_at := r.submitted_at,
    info1 := Val.vs (strToLower r.state), reviewId := r.reviewId, state := r.state }

/-- The synthetic initial review comment and the review comments of one
review (lines 374-398), in cache/append order. -/
def reviewExtraComments (r : RawReview) : List Event :=
  (if r.hasReviewInitialComment then
    [{ baseEvent with
       event := "commented", user := r.user, created_at := r.submitted_at }]
   else [])
  ++ r.reviewComments.map adaptComment

/-- Synthetic dismissal comments harvested from the raw events (lines
400-416): one comment per `review_dismissed` event with a non-empty
dismissal message. -/
def dismissalComments (evs : List Event) : List Event :=
  (evs.filter (fun e =>
    decide (e.event = "review_dismissed") &&
    !(decide (e.dismissalMessage = none)) &&
    !(decide (e.dismissalMessage = some "")))).map
    (fun e => { baseEvent with
                event := "commented", user := e.user, created_at := e.created_at })

/-- The mention/subscription rewrite applied when an event collides with a
cached comment (lines 430-435 and 438-443): the target becomes the original
actor (possibly Python `None`!), the actor becomes the comment's author. -/
def collisionRewrite (cm : Event) (e : Event) : Event :=
  if (e.event = "mentioned" ∨ e.event = "subscribed") ∧ cm.event = "commented" then
    { e with
      ref_target := (match e.user with
                     | none => RefTarget.null
                     | some u => RefTarget.usr u),
      user := cm.user }
  else e

/-- The comment-collision lookup (lines 427-443).  On an exact-timestamp miss,
the code calls `subtract_seconds_from_time(event["created_at"], 1)`, which
runs `datetime.strptime` on the timestamp: for an EMPTY timestamp this raises
ValueError and aborts the run (`none`). -/
def adjustCollision (c : Cache) (e : Event) : Option Event :=
  match cacheLookup c e.created_at with
  | some cm => some (collisionRewrite cm e)
  | none =>
    match e.created_at with
    | none => none
    | some t =>
      match cacheLookup c (some (t - 1)) with
      | some cm => some (collisionRewrite cm e)
      | none => some e

/-- The per-event adjustment of the raw `eventsList` (lines 419-465), in
source order: clear ref target, resolve comment collisions, copy commit
author data onto `referenced` events (subscripting `None` aborts), point
review requests at the requested reviewer, rewrite the review recorded for a
dismissed review (threaded through `reviews`), and swap actor/target on
assignment events. -/
def adjustEvent (c : Cache) (reviews : List Event) (e0 : Event) :
    Option (List Event × Event) :=
  let e1 := { e0 with ref_target := RefTarget.empty }
  match adjustCollision c e1 with
  | none => none
  | some e2 =>
    let step3 : Option Event :=
      if e2.event = "referenced" then
        match e2.commit with
        | none => some e2
        | some cmt =>
          match e2.user, cmt.author with
          | some _, some a =>
            some { e2 with
                   user := some { name := a.name, username := a.username, email := a.email } }
          | _, _ => none
      else some e2
    match step3 with
    | none => none
    | some e3 =>
      let e4 := if e3.event = "review_requested" ∨ e3.event = "review_request_removed" then
          { e3 with ref_target := e3.requestedReviewer }
        else e3
      let reviews2 := if e4.event = "review_dismissed" then
          reviews.map (fun r => if r.reviewId = e4.reviewId then
            { r with
              state := e4.state, info1 := Val.vs e4.state,
              info2 := Val.vs "later_dismissed" }
          else r)
        else reviews
      let e5 := if e4.event = "assigned" ∨ e4.event = "unassigned" then
          { e4 with
            ref_target := (match e4.user with
                           | none => RefTarget.null
                           | some u => RefTarget.usr u),
            user := e4.assigner }
        else e4
      some (reviews2, e5)

/-- The adjustment loop over the raw events, threading the review list. -/
def adjustEvents (c : Cache) : List Event → List Event → Option (List Event × List Event)
  | reviews, [] => some (reviews, [])
  | reviews, e :: es =>
    match adjustEvent c reviews e with
    | none => none
    | some (r2, e2) =>
      match adjustEvents c r2 es with
      | none => none
      | some (r3, rest) => some (r3, e2 :: rest)

/-- Sort key relation used for every timeline sort (Python sorts stably by
the `created_at` string; see the `Time` conventions). -/
def evLe (a b : Event) : Bool := timeLe a.created_at b.created_at

/-- `merge_issue_events` for one issue (lines 275-476): synthesize the
creation event and creation comment, adapt comments / related issues /
related commits / reviews to the event format, build the comment cache in
insertion order, adjust the raw events, concatenate all categories
(comments first - line 468), drop events whose user or ref target is Python
`None` (lines 471-473), and stable-sort by timestamp.  Also returns the
queued `(target number, referenced_by event)` pairs for the backfill pass. -/
def mergeIssue (i : Issue0) : Option (MIssue × List (Int × Event)) :=
  let evs0 := i.eventsList ++ [createdEvent i]
  let comments0 := (i.commentsList.map adaptComment) ++ [creationComment i]
  let reviewEvs0 := i.reviewsList.map reviewEvent
  let reviewComs := (i.reviewsList.map reviewExtraComments).flatten
  let disComs := dismissalComments evs0
  let commentsAll := comments0 ++ reviewComs ++ disComs
  let cache := cacheAddAll [] commentsAll
  match adjustEvents cache reviewEvs0 evs0 with
  | none => none
  | some (reviewEvs1, evs1) =>
    let relIssueEvs := i.relatedIssues.map relIssueEvent
    let relCommitEvs := i.relatedCommits.map relCommitEvent
    let merged0 := commentsAll ++ evs1 ++ relIssueEvs ++ relCommitEvs ++ reviewEvs1
    let merged1 := merged0.filter (fun e =>
      !(decide (e.user = none) || decide (e.ref_target = RefTarget.null)))
    let refs := i.relatedIssues.map (fun r => (r.number, mkReferencedBy i.number r))
    some ({ number := i.number, title := i.title, user := i.user,
            created_at := i.created_at, closed_at := i.closed_at,
            type := i.type, resolution := i.resolution, state_new := "open",
            eventsList := sortLe evLe merged1 }, refs)

/-- The backfill application for one issue (lines 479-482): append, to the
issue's already-sorted list, every queued `referenced_by` event whose target
number matches (in queue order).  Total: a target absent from the batch
simply matches no issue and raises nothing. -/
def backfillIssue (refs : List (Int × Event)) (m : MIssue) : MIssue :=
  { m with
    eventsList :=
      m.eventsList ++ (refs.filter (fun p => decide (p.1 = m.number))).map (fun p => p.2) }

/-- `merge_issue_events` over the whole batch (lines 263-484). -/
def merge_issue_events (issues : List Issue0) : Option (List MIssue) :=
  match optMapM mergeIssue issues with
  | none => none
  | some prs =>
    let refs := (prs.map (fun p => p.2)).flatten
    some (prs.map (fun p => backfillIssue refs p.1))

/-- The user dictionary built by the first loop of `reformat_events`:
a Python dict keyed by username. -/
abbrev UserDict := List (String × User)

/-- Python truth of "name is None or name == ''". -/
def strMissing : Option String → Bool
  | none => true
  | some s => decide (s = "")

def dictSet (d : UserDict) (k : String) (v : User) : UserDict :=
  d.map (fun p => if p.1 = k then (k, v) else p)

def dictFind (d : UserDict) (k : String) : Option User :=
  (d.find? (fun p => decide (p.1 = k))).map (fun p => p.2)

/-- `update_user_dict` (lines 182-202).  Subscripting a `None` user raises
TypeError (`none`); a user with `None` or empty username is skipped when not
already keyed; an existing entry has its missing name/email filled in. -/
def update_user_dict (d : UserDict) (u : Option User) : Option UserDict :=
  match u with
  | none => none
  | some u =>
    match u.username with
    | none => some d
    | some uname =>
      match dictFind d uname with
      | none => if uname = "" then some d else some (d ++ [(uname, u)])
      | some e =>
        let e1 := if strMissing e.name then { e with name := u.name } else e
        let e2 := if strMissing e1.email then { e1 with email := u.email } else e1
        some (dictSet d uname e2)

/-- `lookup_user` (lines 163-179): when name or email is missing the user is
replaced wholesale by the dictionary entry for their username; a missing key
(or a `None` username used as key) raises KeyError (`none`). -/
def lookup_user (d : UserDict) (u : User) : Option User :=
  if strMissing u.name || strMissing u.email then
    match u.username with
    | none => none
    | some uname => dictFind d uname
  else some u

/-- The condition of line 506: events carrying a commit author to harvest. -/
def commitCond (e : Event) : Bool :=
  decide (e.event = "commit_added") ||
  (decide (e.event = "add_link") && decide (e.info2 = Val.vs "commit")) ||
  (decide (e.event = "referenced_by") && decide (e.info2 = Val.vs "commit"))

/-- One step of the dictionary-building loop (lines 500-515): harvest the
commit author (subscripting a missing/None commit or author aborts), the
event actor (a `None` actor aborts - this is how a null-actor event that
bypassed the merge filter, e.g. a backfilled one, kills the run), and the
ref target when it is a user. -/
def passOneEvent (d : UserDict) (e : Event) : Option UserDict :=
  let s1 : Option UserDict :=
    if commitCond e then
      match e.commit with
      | none => none
      | some c => update_user_dict d c.author
    else some d
  match s1 with
  | none => none
  | some d1 =>
    match update_user_dict d1 e.user with
    | none => none
    | some d2 =>
      match e.ref_target with
      | RefTarget.usr u => update_user_dict d2 (some u)
      | _ => some d2

def passOneEvents (d : UserDict) : List Event → Option UserDict
  | [] => some d
  | e :: es =>
    match passOneEvent d e with
    | none => none
    | some d1 => passOneEvents d1 es

def passOneIssues (d : UserDict) : List MIssue → Option UserDict
  | [] => some d
  | i :: is2 =>
    match passOneEvents d i.eventsList with
    | none => none
    | some d1 => passOneIssues d1 is2

/-- The running per-issue state threaded by the second loop of
`reformat_events`. -/
structure IState where
  state_new : String
  type : List String
  resolution : List String
deriving DecidableEq

/-- Known type labels (issue_processing.py lines 42). -/
def known_types : List String :=
  ["bug", "improvement", "enhancement", "new feature", "task", "test", "wish"]

/-- Known resolution labels (issue_processing.py lines 45-48). -/
def known_resolutions : List String :=
  ["unresolved", "fixed", "wontfix", "duplicate", "invalid", "incomplete",
   "cannot reproduce", "later", "not a problem", "implemented", "done",
   "auto closed", "pending", "closed", "remind", "resolved", "not a bug",
   "workaround", "staged", "delivered", "information provided", "works for me",
   "feedback received", "wontdo"]

/-- Python `list.remove`: drop the first occurrence, ValueError (`none`) if
the element is absent. -/
def removeFirst : List String → String → Option (List String)
  | [], _ => none
  | x :: xs, a => if x = a then some xs else (removeFirst xs a).map (fun l => x :: l)

/-- A synthesized `type_updated`/`resolution_updated` event (lines 550-557,
563-571, 581-589, 595-603). -/
def synthEvent (kind : String) (u : Option User) (t : Time) (i1 i2 : String) : Event :=
  { baseEvent with
    event := kind, user := u, created_at := t,
    info1 := Val.vs i1, info2 := Val.vs i2 }

/-- The body of the second loop of `reformat_events` for one event (lines
521-609): resolve users, then apply the kind-dependent rewrite.  Returns the
new running state, the rewritten event, and the list of events appended to
the iterated list (0 or 1 synthesized events).  A `commented` event is
stamped with the current state string and with a REFERENCE to the mutable
resolution list (`Val.resAlias`, see header). -/
def stepEvent (d : UserDict) (st : IState) (e : Event) : Option (IState × Event × List Event) :=
  match (match e.user with
         | none => none
         | some u0 => lookup_user d u0) with
  | none => none
  | some u =>
    match (match e.ref_target with
           | RefTarget.empty => some RefTarget.empty
           | RefTarget.null => none
           | RefTarget.usr u0 => (lookup_user d u0).map RefTarget.usr) with
    | none => none
    | some rt =>
      let e1 := { e with user := some u, ref_target := rt }
      if e1.event = "closed" then
        some ({ st with state_new := "closed" },
              { e1 with event := "state_updated", info1 := Val.vs "closed", info2 := Val.vs "open" },
              [])
      else if e1.event = "reopened" then
        some ({ st with state_new := "reopened" },
              { e1 with event := "state_updated", info1 := Val.vs "open", info2 := Val.vs "closed" },
              [])
      else if e1.event = "labeled" then
        let label := strToLower e1.label
        let e2 := { e1 with info1 := Val.vs label }
        if label ∈ known_types then
          some ({ st with type := st.type ++ [label] }, e2,
                [synthEvent "type_updated" e1.user e1.created_at label ""])
        else if label ∈ known_resolutions then
          some ({ st with resolution := st.resolution ++ [label] }, e2,
                [synthEvent "resolution_updated" e1.user e1.created_at label ""])
        else some (st, e2, [])
      else if e1.event = "unlabeled" then
        let label := strToLower e1.label
        let e2 := { e1 with info1 := Val.vs label }
        if label ∈ known_types then
          match removeFirst st.type label with
          | none => none
          | some ty =>
            some ({ st with type := ty }, e2,
                  [synthEvent "type_updated" e1.user e1.created_at "" label])
        else if label ∈ known_resolutions then
          match removeFirst st.resolution label with
          | none => none
          | some res =>
            some ({ st with resolution := res }, e2,
                  [synthEvent "resolution_updated" e1.user e1.created_at "" label])
        else some (st, e2, [])
      else if e1.event = "commented" then
        some (st, { e1 with info1 := Val.vs st.state_new, info2 := Val.resAlias }, [])
      else some (st, e1, [])

/-- One wave of the iteration over the (growing) events list: process the
given events in order, collecting the rewritten events and the synthesized
events appended behind them. -/
def runEvents (d : UserDict) : IState → List Event → Option (IState × List Event × List Event)
  | st, [] => some (st, [], [])
  | st, e :: es =>
    match stepEvent d st e with
    | none => none
    | some (st1, e1, syn1) =>
      match runEvents d st1 es with
      | none => none
      | some (st2, out, syn) => some (st2, e1 :: out, syn1 ++ syn)

/-- Resolution of the stored list reference at observation time (see header):
a stamp of the issue's resolution list is observed as the FINAL resolution
list. -/
def resolveAlias (res : List String) (e : Event) : Event :=
  if e.info2 = Val.resAlias then { e with info2 := Val.vl res } else e

/-- `reformat_events` for one issue (lines 518-612): run the loop over the
original events, then over the events it appended (which append nothing
further, `runEvents_synth_no_more`), resolve the stored resolution-list
references, and re-sort by timestamp. -/
def reformatIssue (d : UserDict) (m : MIssue) : Option MIssue :=
  match runEvents d { state_new := m.state_new, type := m.type, resolution := m.resolution }
        m.eventsList with
  | none => none
  | some (st1, out1, syn1) =>
    match runEvents d st1 syn1 with
    | none => none
    | some (st2, out2, _) =>
      some { m with
             type := st2.type, resolution := st2.resolution, state_new := st2.state_new,
             eventsList := sortLe evLe (((out1 ++ out2).map (resolveAlias st2.resolution))) }

/-- `reformat_events` over the whole batch (lines 487-614): build the user
dictionary in a first pass over every event of every issue, then re-format
each issue. -/
def reformat_events (issues : List MIssue) : Option (List MIssue) :=
  match passOneIssues [] issues with
  | none => none
  | some d => optMapM (reformatIssue d) issues

/-- Steps 2-4 of `run()` (lines 74-79): reformat, merge, reformat events.
This is the artifact handed to the identity-resolution and serialization
steps. -/
def processIssues (raw : List RawIssue) : Option (List MIssue) :=
  match merge_issue_events (reformat_issues raw) with
  | none => none
  | some ms => reformat_events ms

/-- Interface model of `dateutil.parser.parse` (external library, used by
`format_time` in both modules): it raises ValueError ("Unknown string
format") on strings carrying no date information — e.g. on any string
without a digit, such as "garbage" — and parses date-bearing strings.  Only
the success/failure split matters for the claims; the reformatted value of a
successful parse is abstracted as the input itself. -/
def dateutilParse (s : String) : Option String :=
  if s.data.any (fun c => c.isDigit) then some s else none

/-- `format_time` (issue_processing.py lines 109-122, identical in
jira_issue_processing.py lines 164-177): empty or `None` input short-circuits
to ""; any other input goes STRAIGHT to `dateparser.parse` with no exception
handler, so an unparsable string propagates ValueError and aborts the run
(`none`). -/
def format_time (time : Option String) : Option String :=
  match time with
  | none => some ""
  | some s => if s = "" then some "" else dateutilParse s

/-- A row of the person table behind the ID service (columns read by
`insert_user_data`). -/
structure Person where
  name : String
  email1 : String
  id : Int
deriving DecidableEq

/-- A user record after resolution against the ID service. -/
structure RUser where
  name : Option String
  username : Option String
  email : Option String
  id : Int
deriving DecidableEq

/-- Python 2 `unicode(x)` on an optional string: `None` prints as "None". -/
def pyUnicode : Option String → String
  | none => "None"
  | some s => s

/-- `get_user_string` (lines 635-640): name alone when the email is falsy
(empty), otherwise "name <email>". -/
def get_user_string (name : String) (email : String) : String :=
  if email = "" then name else name ++ " <" ++ email ++ ">"

/-- The signature string `get_or_update_user` computes for a raw user
(lines 643-650): the name when present (`is not None`, even if empty),
else the username; the email through `unicode` (so `None` becomes "None"). -/
def userSignature (user : User) : String :=
  get_user_string
    (match user.name with
     | some n => n
     | none => pyUnicode user.username)
    (pyUnicode user.email)

/-- The session buffer `user_buffer` keyed by signature string. -/
abbrev Buffer := List (String × RUser)

def bufFind : Buffer → String → Option RUser
  | [], _ => none
  | p :: t, k => if p.1 = k then some p.2 else bufFind t k

/-- `get_or_update_user` (issue_processing.py lines 642-671), with the two
external collaborators (`idservice.getPersonID`, `idservice.getPersonFromDB`)
passed in as deterministic functions.  Returns the resolved user, the updated
buffer, and the list of signature strings passed to the external
`getPersonID` call during this invocation (empty on a buffer hit). -/
def get_or_update_user (getPersonID : String → Int) (getPersonFromDB : Int → Person)
    (buffer_db : Buffer) (user : User) : RUser × Buffer × List String :=
  let user_string := userSignature user
  match bufFind buffer_db user_string with
  | some u => (u, buffer_db, [])
  | none =>
    let idx := getPersonID user_string
    let person := getPersonFromDB idx
    let u : RUser := { name := some person.name, username := user.username,
                       email := some person.email1, id := person.id }
    (u, buffer_db ++ [(user_string, u)], [user_string])

/-- One output tuple of `print_to_disk` (lines 709-724), with the
json-serialized list fields kept structured (json.dumps is injective on
them, so tuple equality is unchanged). -/
structure OutLine where
  number : Int
  title : String
  type : List String
  state_new : String
  resolution : List String
  created_at : Time
  closed_at : Time
  components : List String
  event : String
  userName : Option String
  userEmail : Option String
  event_created_at : Time
  info1 : Val
  info2 : Val
deriving DecidableEq

/-- The tuple built for one event of one issue (lines 709-724). -/
def eventLine (i : MIssue) (e : Event) : OutLine :=
  { number := i.number, title := i.title, type := i.type, state_new := i.state_new,
    resolution := i.resolution, created_at := i.created_at, closed_at := i.closed_at,
    components := [], event := e.event,
    userName := e.user.bind (fun u => u.name),
    userEmail := e.user.bind (fun u => u.email),
    event_created_at := e.created_at, info1 := e.info1, info2 := e.info2 }

/-- All output tuples, in construction order (the `lines` list). -/
def print_to_disk_lines (issues : List MIssue) : List OutLine :=
  (issues.map (fun i => i.eventsList.map (eventLine i))).flatten

/-- `sorted(set(lines), key=lambda line: lines.index(line))` (line 727):
the distinct tuples, sorted by the index of their first occurrence in
`lines` (`list.index` returns the FIRST position; distinct tuples have
distinct first positions, so the sort order is unique and stability is
moot). -/
def pyDistinct (lines : List OutLine) : List OutLine :=
  sortLe (fun a b => decide (lines.indexOf a ≤ lines.indexOf b)) lines.dedup

/-- `print_to_disk` (lines 691-727) up to CSV serialization: the list of
rows handed to `csv_writer.write_to_csv`. -/
def print_to_disk (issues : List MIssue) : List OutLine :=
  pyDistinct (print_to_disk_lines issues)

/-- The timestamp order claimed by the spec for empty timestamps ("sort as if
they occurred at issue-creation time"): interpret an empty timestamp as the
issue-creation time before comparing. -/
def anchorTime (creation : Time) : Time → Time
  | none => creation
  | some t => some t

/-- A fully populated identity used by the concrete scenarios (complete
name/username/email, so `lookup_user` leaves it unchanged). -/
def mkUser (s : String) : User :=
  { name := some s, username := some s, email := some (s ++ "@example.org") }

/-- A minimal raw issue used as the base of the concrete scenarios. -/
def rawBase : RawIssue :=
  { number := 1, title := "t", user := some (mkUser "alice"), created_at := some 0,
    closed_at := none, isPullRequest := false, eventsList := some [],
    commentsList := some [], relatedCommits := some [], reviewsList := some [],
    relatedIssues := some [] }

/-- C1 scenario: a comment at time 1 by bob, then the label "fixed" (a known
resolution) added at time 2 by carol. -/
def c1In : RawIssue :=
  { rawBase with
    commentsList := some [{ user := some (mkUser "bob"), referenced_at := some 1 }],
    eventsList := some [{ baseEvent with
      event := "labeled", user := some (mkUser "carol"),
      created_at := some 2, label := "fixed" }] }

/-- C2 scenario: issue created at time 10, one comment with an EMPTY
timestamp and one comment at time 5 (before creation). -/
def c2In : RawIssue :=
  { rawBase with
    created_at := some 10,
    commentsList := some [{ user := some (mkUser "bob"), referenced_at := none },
                          { user := some (mkUser "carol"), referenced_at := some 5 }] }

/-- C3 scenario: closed at 2, reopened at 3, closed again at 4. -/
def c3In : RawIssue :=
  { rawBase with
    eventsList := some
      [{ baseEvent with event := "closed", user := some (mkUser "bob"), created_at := some 2 },
       { baseEvent with event := "reopened", user := some (mkUser "bob"), created_at := some 3 },
       { baseEvent with event := "closed", user := some (mkUser "bob"), created_at := some 4 }] }

/-- C5 scenario: a raw `closed` event with a null actor (dropped by the
merge filter; the run still succeeds). -/
def c5In : RawIssue :=
  { rawBase with
    eventsList := some
      [{ baseEvent with event := "closed", user := none, created_at := some 2 }] }

/-- C8 scenario: the related-issue link, made at time 5, pointing at issue
number 2. -/
def c8Rel : RawRelIssue :=
  { number := 2, referenced_at := some 5, user := some (mkUser "dave") }

/-- C8 scenario, issue X: carries a related-issue link to issue number 2
made at time 5. -/
def c8X : RawIssue :=
  { rawBase with relatedIssues := some [c8Rel] }

/-- C8 scenario, issue Y: the link target, with no raw fragments of its
own. -/
def c8Y : RawIssue :=
  { rawBase with number := 2, user := some (mkUser "erin") }

/-- A default issue record for list extraction in concrete statements. -/
def mIssueDefault : MIssue :=
  { number := 0, title := "", user := none, created_at := none, closed_at := none,
    type := [], resolution := [], state_new := "", eventsList := [] }

/-- The event list of the first issue of a pipeline result (concrete
statements only). -/
def outEvents (r : Option (List MIssue)) : List Event :=
  ((r.getD []).headD mIssueDefault).eventsList

/-- A small user dictionary for the step-level witnesses. -/
def sampleDict : UserDict := [("carol", mkUser "carol")]

/-- A running state holding type ["issue"] and no resolutions. -/
def sampleState : IState := { state_new := "open", type := ["issue"], resolution := [] }

/-- A concrete `closed` event (C3 witness). -/
def c3Ev : Event :=
  { baseEvent with event := "closed", user := some (mkUser "carol"), created_at := some 2 }

/-- A default step result for extraction. -/
def stepDefault : IState × Event × List Event :=
  ({ state_new := "", type := [], resolution := [] }, baseEvent, [])

/-- The concrete step result on `c3Ev` (C3 witness). -/
def c3StepOut : IState × Event × List Event :=
  (stepEvent sampleDict sampleState c3Ev).getD stepDefault

/-- The merged (pre-reformat) issue of the C3 scenario. -/
def c3MIssue : MIssue :=
  ((merge_issue_events (reformat_issues [c3In])).getD []).headD mIssueDefault

/-- The user dictionary the C3 scenario builds. -/
def c3Dict : UserDict :=
  (passOneIssues [] ((merge_issue_events (reformat_issues [c3In])).getD [])).getD []

/-- The running state (`issue["state_new"]`) right before the second
`closed` event of the C3 scenario is processed: replay the first four
events of the merged timeline. -/
def c3StateBefore : String :=
  (match runEvents c3Dict
      { state_new := c3MIssue.state_new, type := c3MIssue.type, resolution := c3MIssue.resolution }
      (c3MIssue.eventsList.take 4) with
   | some (st, _, _) => st.state_new
   | none => "")

/-- The cached comment of the C7 witness: by bob at time 5. -/
def c7Comment : Event :=
  { baseEvent with event := "commented", user := some (mkUser "bob"), created_at := some 5 }

/-- The comment cache of the C7 witness. -/
def c7Cache : Cache := [(some 5, c7Comment)]

/-- The colliding `mentioned` event of the C7 witness: names carol, lands at
the comment's exact timestamp. -/
def c7Event : Event :=
  { baseEvent with event := "mentioned", user := some (mkUser "carol"), created_at := some 5 }

/-- The `unlabeled` event of the C9 witness: label "Bug" (lower-cased "bug",
a known type) while the running type list does not contain "bug". -/
def c9Event : Event :=
  { baseEvent with
    event := "unlabeled", user := some (mkUser "carol"),
    created_at := some 2, label := "Bug" }

/-! Helper theorems about the generic components. -/

theorem timeLe_total (a b : Time) : timeLe a b = true ∨ timeLe b a = true := by
  cases a with
  | none => exact Or.inl rfl
  | some x =>
    cases b with
    | none => exact Or.inr rfl
    | some y =>
      rcases Int.le_total x y with h | h
      · exact Or.inl (by simpa [timeLe] using h)
      · exact Or.inr (by simpa [timeLe] using h)

theorem timeLe_trans {a b c : Time} (h1 : timeLe a b = true) (h2 : timeLe b c = true) :
    timeLe a c = true := by
  cases a with
  | none => rfl
  | some x =>
    cases b with
    | none => simp [timeLe] at h1
    | some y =>
      cases c with
      | none => simp [timeLe] at h2
      | some z =>
        simp only [timeLe, decide_eq_true_eq] at h1 h2 ⊢
        exact le_trans h1 h2

theorem mem_insertLe (le : α → α → Bool) (a x : α) (l : List α) :
    x ∈ insertLe le a l ↔ x = a ∨ x ∈ l := by
  induction l with
  | nil => simp [insertLe]
  | cons b t ih =>
    cases h : le a b
    · simp only [insertLe, h, Bool.false_eq_true, if_false, List.mem_cons, ih]
      tauto
    · simp [insertLe, h]

theorem mem_sortLe (le : α → α → Bool) (x : α) (l : List α) :
    x ∈ sortLe le l ↔ x ∈ l := by
  induction l with
  | nil => simp [sortLe]
  | cons a t ih => simp [sortLe, mem_insertLe, ih]

theorem perm_insertLe (le : α → α → Bool) (a : α) (l : List α) :
    List.Perm (insertLe le a l) (a :: l) := by
  induction l with
  | nil => simp [insertLe]
  | cons b t ih =>
    cases h : le a b
    · simpa [insertLe, h] using List.Perm.trans (List.Perm.cons b ih) (List.Perm.swap a b t)
    · simp [insertLe, h]

theorem perm_sortLe (le : α → α → Bool) (l : List α) :
    List.Perm (sortLe le l) l := by
  induction l with
  | nil => simp [sortLe]
  | cons a t ih => exact List.Perm.trans (perm_insertLe le a (sortLe le t)) (List.Perm.cons a ih)

theorem pairwise_insertLe (le : α → α → Bool)
    (htot : ∀ a b, le a b = true ∨ le b a = true)
    (htrans : ∀ a b c, le a b = true → le b c = true → le a c = true)
    (a : α) (l : List α) (h : List.Pairwise (fun x y => le x y = true) l) :
    List.Pairwise (fun x y => le x y = true) (insertLe le a l) := by
  induction l with
  | nil => simp [insertLe]
  | cons b t ih =>
    rcases h with _ | ⟨hb, ht⟩
    cases hab : le a b
    · have hgoal : insertLe le a (b :: t) = b :: insertLe le a t := by
        simp [insertLe, hab]
      rw [hgoal]
      refine List.Pairwise.cons ?_ (ih ht)
      intro x hx
      rcases (mem_insertLe le a x t).mp hx with hx | hx
      · rcases htot a b with hc | hc
        · rw [hab] at hc
          exact absurd hc (by simp)
        · rw [hx]
          exact hc
      · exact hb x hx
    · have hgoal : insertLe le a (b :: t) = a :: b :: t := by
        simp [insertLe, hab]
      rw [hgoal]
      refine List.Pairwise.cons ?_ (List.Pairwise.cons hb ht)
      intro x hx
      rcases List.mem_cons.mp hx with hx | hx
      · subst hx
        exact hab
      · exact htrans a b x hab (hb x hx)

theorem pairwise_sortLe (le : α → α → Bool)
    (htot : ∀ a b, le a b = true ∨ le b a = true)
    (htrans : ∀ a b c, le a b = true → le b c = true → le a c = true)
    (l : List α) :
    List.Pairwise (fun x y => le x y = true) (sortLe le l) := by
  induction l with
  | nil => exact List.Pairwise.nil
  | cons a t ih => exact pairwise_insertLe le htot htrans a (sortLe le t) ih

theorem optMapM_cons_some {f : α → Option β} {x : α} {t : List α} {res : List β}
    (h : optMapM f (x :: t) = some res) :
    ∃ b rest, f x = some b ∧ optMapM f t = some rest ∧ res = b :: rest := by
  rw [optMapM] at h
  cases hfx : f x with
  | none => rw [hfx] at h; cases h
  | some b =>
    rw [hfx] at h
    cases hrest : optMapM f t with
    | none => rw [hrest] at h; cases h
    | some rest =>
      rw [hrest] at h
      simp only [Option.some.injEq] at h
      exact ⟨b, rest, rfl, rfl, h.symm⟩

theorem optMapM_mem {f : α → Option β} {l : List α} {res : List β}
    (h : optMapM f l = some res) {a : α} (ha : a ∈ l) :
    ∃ b, b ∈ res ∧ f a = some b := by
  induction l generalizing res with
  | nil => cases ha
  | cons x t ih =>
    rcases optMapM_cons_some h with ⟨b, rest, hfx, hrest, hres⟩
    subst hres
    rcases List.mem_cons.mp ha with ha | ha
    · subst ha
      exact ⟨b, List.mem_cons_self b rest, hfx⟩
    · rcases ih hrest ha with ⟨b2, hb2, hfb2⟩
      exact ⟨b2, List.mem_cons_of_mem b hb2, hfb2⟩

theorem optMapM_mem_rev {f : α → Option β} {l : List α} {res : List β}
    (h : optMapM f l = some res) {b : β} (hb : b ∈ res) :
    ∃ a, a ∈ l ∧ f a = some b := by
  induction l generalizing res with
  | nil =>
    rw [optMapM] at h
    simp only [Option.some.injEq] at h
    subst h
    cases hb
  | cons x t ih =>
    rcases optMapM_cons_some h with ⟨b1, rest, hfx, hrest, hres⟩
    subst hres
    rcases List.mem_cons.mp hb with hb | hb
    · subst hb
      exact ⟨x, List.mem_cons_self x t, hfx⟩
    · rcases ih hrest hb with ⟨a, ha, hfa⟩
      exact ⟨a, List.mem_cons_of_mem x ha, hfa⟩

theorem bufFind_append_self (b : Buffer) (k : String) (v : RUser)
    (h : bufFind b k = none) : bufFind (b ++ [(k, v)]) k = some v := by
  induction b with
  | nil => simp [bufFind]
  | cons p t ih =>
    by_cases hp : p.1 = k
    · rw [bufFind, if_pos hp] at h
      cases h
    · rw [bufFind, if_neg hp] at h
      rw [List.cons_append, bufFind, if_neg hp]
      exact ih h

theorem removeFirst_eq_none {l : List String} {a : String} :
    removeFirst l a = none ↔ a ∉ l := by
  induction l with
  | nil => simp [removeFirst]
  | cons x xs ih =>
    by_cases hx : x = a
    · subst hx
      simp [removeFirst]
    · simp only [removeFirst, if_neg hx, List.mem_cons]
      constructor
      · intro h hc
        rcases hc with hc | hc
        · exact hx hc.symm
        · cases hr : removeFirst xs a with
          | none => exact (ih.mp hr) hc
          | some _ => rw [hr] at h; cases h
      · intro h
        have : a ∉ xs := fun hc => h (Or.inr hc)
        rw [ih.mpr this]
        rfl

/-- C4 counterexample: the claim says an unparsable timestamp never aborts
the run, but `format_time "garbage"` propagates the ValueError raised by
`dateparser.parse` (there is no exception handler in `format_time`). -/
theorem c4_counterexample : format_time (some "garbage") = none := by decide

/-- C4 (corrected): the timestamp formatter does accept empty or `None`
input and returns the empty string; but a non-empty input whose parse fails
makes `format_time` raise (abort), rather than substituting an empty
timestamp. -/
theorem c4_format_time_amended (t : Option String) :
    (t = none ∨ t = some "" → format_time t = some "") ∧
    (∀ s, t = some s → s ≠ "" → dateutilParse s = none → format_time t = none) := by
  constructor
  · rintro (rfl | rfl) <;> simp [format_time]
  · rintro s rfl hs hp
    simp [format_time, hs, hp]

theorem c4_format_time_amended_witness :
    format_time none = some "" ∧ format_time (some "garbage") = none := by
  refine ⟨(c4_format_time_amended none).1 (Or.inl rfl), ?_⟩
  exact (c4_format_time_amended (some "garbage")).2 "garbage" rfl (by decide) (by decide)

/-- C6: resolving the same raw identity twice within one run returns the
same resolved identity both times, and the external resolver
(`idservice.getPersonID`) is consulted at most once for that identity's
signature string — the second call is served from `user_buffer`. -/
theorem c6_canonicalize_idempotent (gp : String → Int) (gd : Int → Person)
    (buf : Buffer) (user : User) :
    (get_or_update_user gp gd (get_or_update_user gp gd buf user).2.1 user).1
      = (get_or_update_user gp gd buf user).1 ∧
    List.count (userSignature user)
      ((get_or_update_user gp gd buf user).2.2
        ++ (get_or_update_user gp gd (get_or_update_user gp gd buf user).2.1 user).2.2) ≤ 1 := by
  cases h : bufFind buf (userSignature user) with
  | some u =>
    simp [get_or_update_user, h]
  | none =>
    have h2 := bufFind_append_self buf (userSignature user)
      { name := some (gd (gp (userSignature user))).name, username := user.username,
        email := some (gd (gp (userSignature user))).email1,
        id := (gd (gp (userSignature user))).id } h
    simp [get_or_update_user, h, h2]

/-- C10: the GitHub output writer emits exactly the distinct output tuples
(`sorted(set(lines), key=lines.index)`): every input row appears, each
exactly once, and rows are ordered by the position of their first
occurrence (list.index returns the first position), so rows differing in
any field are all kept. -/
theorem c10_print_distinct (issues : List MIssue) :
    (∀ l, l ∈ print_to_disk issues ↔ l ∈ print_to_disk_lines issues) ∧
    (print_to_disk issues).Nodup ∧
    List.Pairwise (fun a b =>
      (print_to_disk_lines issues).indexOf a ≤ (print_to_disk_lines issues).indexOf b)
      (print_to_disk issues) := by
  refine ⟨?_, ?_, ?_⟩
  · intro l
    rw [print_to_disk, pyDistinct, mem_sortLe, List.mem_dedup]
  · rw [print_to_disk, pyDistinct]
    exact ((perm_sortLe _ _).nodup_iff).mpr (List.nodup_dedup _)
  · rw [print_to_disk, pyDistinct]
    have hp := pairwise_sortLe
      (fun a b => decide ((print_to_disk_lines issues).indexOf a
        ≤ (print_to_disk_lines issues).indexOf b))
      (fun a b => by
        rcases Nat.le_total ((print_to_disk_lines issues).indexOf a)
          ((print_to_disk_lines issues).indexOf b) with h | h
        · exact Or.inl (decide_eq_true h)
        · exact Or.inr (decide_eq_true h))
      (fun a b c h1 h2 =>
        decide_eq_true (Nat.le_trans (of_decide_eq_true h1) (of_decide_eq_true h2)))
      ((print_to_disk_lines issues).dedup)
    exact hp.imp (fun h => of_decide_eq_true h)

theorem stepEvent_user_isSome {d : UserDict} {st : IState} {e : Event}
    {st1 : IState} {e1 : Event} {syn1 : List Event}
    (h : stepEvent d st e = some (st1, e1, syn1)) : e1.user.isSome := by
  unfold stepEvent at h
  split at h
  · cases h
  · split at h
    · cases h
    · dsimp only at h
      repeat' split at h
      all_goals (try cases h)
      all_goals simp

theorem stepEvent_synth_shape {d : UserDict} {st : IState} {e : Event}
    {st1 : IState} {e1 : Event} {syn1 : List Event}
    (h : stepEvent d st e = some (st1, e1, syn1)) :
    ∀ s ∈ syn1, s.user.isSome ∧ (s.event = "type_updated" ∨ s.event = "resolution_updated") := by
  unfold stepEvent at h
  split at h
  · cases h
  · split at h
    · cases h
    · dsimp only at h
      repeat' split at h
      all_goals (try cases h)
      all_goals simp [synthEvent]

theorem stepEvent_referenced_by {d : UserDict} {st : IState} {e : Event}
    {st1 : IState} {e1 : Event} {syn1 : List Event}
    (hk : e.event = "referenced_by")
    (h : stepEvent d st e = some (st1, e1, syn1)) :
    e1.event = "referenced_by" ∧ e1.created_at = e.created_at ∧ e1.info1 = e.info1 := by
  unfold stepEvent at h
  split at h
  · cases h
  · split at h
    · cases h
    · dsimp only at h
      rw [hk] at h
      simp only [String.reduceEq, if_false, if_true, reduceIte] at h
      cases h
      simp [hk]

theorem stepEvent_no_more_synth {d : UserDict} {st : IState} {e : Event}
    {st1 : IState} {e1 : Event} {syn1 : List Event}
    (hk : e.event = "type_updated" ∨ e.event = "resolution_updated")
    (h : stepEvent d st e = some (st1, e1, syn1)) : syn1 = [] := by
  unfold stepEvent at h
  split at h
  · cases h
  · split at h
    · cases h
    · dsimp only at h
      rcases hk with hk | hk <;>
        (rw [hk] at h
         simp only [String.reduceEq, if_false, if_true, reduceIte] at h
         cases h
         rfl)

theorem runEvents_cons_some {d : UserDict} {st : IState} {e : Event} {es : List Event}
    {st2 : IState} {out syn : List Event}
    (h : runEvents d st (e :: es) = some (st2, out, syn)) :
    ∃ st1 e1 syn1 out2 syn2, stepEvent d st e = some (st1, e1, syn1) ∧
      runEvents d st1 es = some (st2, out2, syn2) ∧
      out = e1 :: out2 ∧ syn = syn1 ++ syn2 := by
  rw [runEvents] at h
  cases hs : stepEvent d st e with
  | none => rw [hs] at h; cases h
  | some p =>
    obtain ⟨st1, e1, syn1⟩ := p
    rw [hs] at h
    dsimp only at h
    cases hr : runEvents d st1 es with
    | none => rw [hr] at h; cases h
    | some q =>
      obtain ⟨st2b, out2, syn2⟩ := q
      rw [hr] at h
      dsimp only at h
      cases h
      exact ⟨st1, e1, syn1, out2, syn2, rfl, hr, rfl, rfl⟩

theorem runEvents_out_user {d : UserDict} {st : IState} {evs : List Event}
    {st2 : IState} {out syn : List Event}
    (h : runEvents d st evs = some (st2, out, syn)) :
    (∀ e1 ∈ out, e1.user.isSome) ∧
    (∀ s ∈ syn, s.user.isSome ∧ (s.event = "type_updated" ∨ s.event = "resolution_updated")) := by
  induction evs generalizing st out syn with
  | nil =>
    rw [runEvents] at h
    cases h
    exact ⟨fun _ hx => absurd hx (List.not_mem_nil _), fun _ hx => absurd hx (List.not_mem_nil _)⟩
  | cons e es ih =>
    rcases runEvents_cons_some h with ⟨st1, e1, syn1, out2, syn2, hs, hr, ho, hy⟩
    subst ho
    subst hy
    rcases ih hr with ⟨ih1, ih2⟩
    constructor
    · intro x hx
      rcases List.mem_cons.mp hx with hx | hx
      · subst hx
        exact stepEvent_user_isSome hs
      · exact ih1 x hx
    · intro s hs2
      rcases List.mem_append.mp hs2 with hs2 | hs2
      · exact stepEvent_synth_shape hs s hs2
      · exact ih2 s hs2

theorem runEvents_mem {d : UserDict} {st : IState} {evs : List Event}
    {st2 : IState} {out syn : List Event}
    (h : runEvents d st evs = some (st2, out, syn)) {e : Event} (he : e ∈ evs) :
    ∃ st0 st1 e1 syn1, stepEvent d st0 e = some (st1, e1, syn1) ∧ e1 ∈ out := by
  induction evs generalizing st out syn with
  | nil => cases he
  | cons x es ih =>
    rcases runEvents_cons_some h with ⟨st1, e1, syn1, out2, syn2, hs, hr, ho, hy⟩
    subst ho
    rcases List.mem_cons.mp he with he | he
    · subst he
      exact ⟨st, st1, e1, syn1, hs, List.mem_cons_self e1 out2⟩
    · rcases ih hr he with ⟨st0, st1b, e1b, syn1b, hsb, hob⟩
      exact ⟨st0, st1b, e1b, syn1b, hsb, List.mem_cons_of_mem e1 hob⟩

/-- The wave of events appended by the loop of `reformat_events` appends
nothing further: all appended events are `type_updated`/`resolution_updated`
events, for which the loop body synthesizes nothing (so the Python
iteration over the growing list terminates after the second wave, as
`reformatIssue` models). -/
theorem runEvents_synth_no_more {d : UserDict} {st : IState} {evs : List Event}
    {st2 : IState} {out syn : List Event}
    (hk : ∀ e ∈ evs, e.event = "type_updated" ∨ e.event = "resolution_updated")
    (h : runEvents d st evs = some (st2, out, syn)) : syn = [] := by
  induction evs generalizing st out syn with
  | nil =>
    rw [runEvents] at h
    cases h
    rfl
  | cons e es ih =>
    rcases runEvents_cons_some h with ⟨st1, e1, syn1, out2, syn2, hs, hr, ho, hy⟩
    subst hy
    have h1 : syn1 = [] := stepEvent_no_more_synth (hk e (List.mem_cons_self e es)) hs
    have h2 : syn2 = [] := ih (fun x hx => hk x (List.mem_cons_of_mem e hx)) hr
    rw [h1, h2]
    rfl

theorem evLe_total (a b : Event) : evLe a b = true ∨ evLe b a = true :=
  timeLe_total _ _

theorem evLe_trans (a b c : Event) (h1 : evLe a b = true) (h2 : evLe b c = true) :
    evLe a c = true :=
  timeLe_trans h1 h2

theorem resolveAlias_fields (res : List String) (e : Event) :
    (resolveAlias res e).event = e.event ∧ (resolveAlias res e).created_at = e.created_at ∧
    (resolveAlias res e).info1 = e.info1 ∧ (resolveAlias res e).user = e.user := by
  unfold resolveAlias
  split <;> exact ⟨rfl, rfl, rfl, rfl⟩

theorem reformatIssue_some {d : UserDict} {m m2 : MIssue}
    (h : reformatIssue d m = some m2) :
    ∃ st1 out1 syn1 st2 out2 syn2,
      runEvents d { state_new := m.state_new, type := m.type, resolution := m.resolution }
          m.eventsList = some (st1, out1, syn1) ∧
      runEvents d st1 syn1 = some (st2, out2, syn2) ∧
      m2.number = m.number ∧
      m2.eventsList = sortLe evLe ((out1 ++ out2).map (resolveAlias st2.resolution)) := by
  unfold reformatIssue at h
  split at h
  · cases h
  · next st1 out1 syn1 heq1 =>
    split at h
    · cases h
    · next st2 out2 syn2 heq2 =>
      cases h
      exact ⟨st1, out1, syn1, st2, out2, syn2, heq1, heq2, rfl, rfl⟩

theorem processIssues_some {raw : List RawIssue} {out : List MIssue}
    (h : processIssues raw = some out) :
    ∃ ms d, merge_issue_events (reformat_issues raw) = some ms ∧
      passOneIssues [] ms = some d ∧ optMapM (reformatIssue d) ms = some out := by
  unfold processIssues at h
  split at h
  · cases h
  · next ms heq =>
    unfold reformat_events at h
    split at h
    · cases h
    · next d heq2 => exact ⟨ms, d, heq, heq2, h⟩

theorem merge_issue_events_some {issues : List Issue0} {ms : List MIssue}
    (h : merge_issue_events issues = some ms) :
    ∃ prs, optMapM mergeIssue issues = some prs ∧
      ms = prs.map (fun p => backfillIssue ((prs.map (fun q => q.2)).flatten) p.1) := by
  unfold merge_issue_events at h
  split at h
  · cases h
  · next prs heq =>
    cases h
    exact ⟨prs, heq, rfl⟩

theorem mergeIssue_refs {i : Issue0} {pr : MIssue × List (Int × Event)}
    (h : mergeIssue i = some pr) :
    pr.2 = i.relatedIssues.map (fun r => (r.number, mkReferencedBy i.number r)) ∧
    pr.1.number = i.number := by
  unfold mergeIssue at h
  dsimp only at h
  split at h
  · cases h
  · next reviewEvs1 evs1 heq =>
    cases h
    exact ⟨rfl, rfl⟩

theorem backfillIssue_mem {refs : List (Int × Event)} {m : MIssue} {n : Int} {ev : Event}
    (hin : (n, ev) ∈ refs) (hn : m.number = n) :
    ev ∈ (backfillIssue refs m).eventsList := by
  unfold backfillIssue
  refine List.mem_append_right _ ?_
  exact List.mem_map.mpr ⟨(n, ev), List.mem_filter.mpr ⟨hin, by simp [hn]⟩, rfl⟩

theorem backfillIssue_unchanged {refs : List (Int × Event)} {m : MIssue}
    (h : ∀ p ∈ refs, p.1 ≠ m.number) : backfillIssue refs m = m := by
  unfold backfillIssue
  have hf : refs.filter (fun p => decide (p.1 = m.number)) = [] := by
    rw [List.filter_eq_nil_iff]
    intro p hp
    simp [h p hp]
  rw [hf]
  simp

/-- C2 (corrected), sortedness half: every emitted timeline is non-decreasing
in the order Python's string sort induces (`timeLe`: empty timestamps before
every dated one, dates chronological). -/
theorem c2_sorted_amended (raw : List RawIssue) (out : List MIssue)
    (h : processIssues raw = some out) :
    ∀ m ∈ out, List.Pairwise (fun a b => evLe a b = true) m.eventsList := by
  rcases processIssues_some h with ⟨ms, d, hm, hd, hmap⟩
  intro m hmem
  rcases optMapM_mem_rev hmap hmem with ⟨mm, hmm, href⟩
  rcases reformatIssue_some href with ⟨st1, out1, syn1, st2, out2, syn2, h1, h2, hnum, hevs⟩
  rw [hevs]
  exact pairwise_sortLe evLe evLe_total evLe_trans _

theorem c2_sorted_amended_witness :
    List.Pairwise (fun a b => evLe a b = true)
      (((processIssues [c2In]).getD []).headD mIssueDefault).eventsList :=
  c2_sorted_amended [c2In] ((processIssues [c2In]).getD []) (by decide)
    (((processIssues [c2In]).getD []).headD mIssueDefault) (by decide)

/-- C2 counterexample: on `c2In` (created at 10, one comment with an empty
timestamp, one comment at 5) the first emitted event is a `commented` event,
not the `created` event; and the timeline is NOT sorted under the claim's
"empty timestamps sort as if at issue-creation time" order (the empty-stamped
comment precedes the time-5 comment although creation is at 10) — empty
timestamps in fact sort before everything. -/
theorem c2_counterexample :
    ((outEvents (processIssues [c2In])).headD baseEvent).event = "commented" ∧
    ((outEvents (processIssues [c2In])).headD baseEvent).event ≠ "created" ∧
    ¬ List.Pairwise
        (fun a b => timeLe (anchorTime (some 10) a.created_at)
          (anchorTime (some 10) b.created_at) = true)
        (outEvents (processIssues [c2In])) := by decide

/-- C5: every event of every emitted timeline carries a non-null actor, so
an input event whose actor is null never appears in any issue's output
timeline.  (Null-actor events are dropped by the merge filter; a null-actor
event that bypasses the filter — e.g. a backfilled `referenced_by` — makes
`reformat_events` raise in `update_user_dict`, so no output exists at all;
and the mention/assignment rewrites that replace a null actor also set a
null ref target, which the filter drops.) -/
theorem c5_no_null_actor (raw : List RawIssue) (out : List MIssue)
    (h : processIssues raw = some out) :
    ∀ m ∈ out, ∀ e ∈ m.eventsList, e.user ≠ none := by
  rcases processIssues_some h with ⟨ms, d, hm, hd, hmap⟩
  intro m hmem e he
  rcases optMapM_mem_rev hmap hmem with ⟨mi, hmi, href⟩
  rcases reformatIssue_some href with ⟨st1, out1, syn1, st2, out2, syn2, h1, h2, hnum, hevs⟩
  rw [hevs] at he
  rcases List.mem_map.mp ((mem_sortLe _ _ _).mp he) with ⟨e0, he0, heq⟩
  have huser : e0.user.isSome := by
    rcases List.mem_append.mp he0 with h0 | h0
    · exact (runEvents_out_user h1).1 e0 h0
    · exact (runEvents_out_user h2).1 e0 h0
  rw [← heq, (resolveAlias_fields st2.resolution e0).2.2.2]
  intro hcontra
  rw [hcontra] at huser
  simp at huser

theorem c5_no_null_actor_witness :
    ((((processIssues [c5In]).getD []).headD mIssueDefault).eventsList.headD baseEvent).user
      ≠ none :=
  c5_no_null_actor [c5In] ((processIssues [c5In]).getD []) (by decide)
    (((processIssues [c5In]).getD []).headD mIssueDefault) (by decide)
    ((((processIssues [c5In]).getD []).headD mIssueDefault).eventsList.headD baseEvent)
    (by decide)

/-- C8: (a) a related-issue link from X to Y inside the batch materializes as
a `referenced_by` event on every output issue bearing the target's number,
at the link's time, with X's number as payload; (b) the backfill leaves an
issue untouched when no queued link targets its number (a link to an issue
outside the batch is silently not backfilled; the backfill step is total,
so no error is raised). -/
theorem c8_backfill :
    (∀ raw out X r, processIssues raw = some out → X ∈ raw →
      r ∈ X.relatedIssues.getD [] →
      ∀ m ∈ out, m.number = r.number →
        ∃ e ∈ m.eventsList, e.event = "referenced_by" ∧
          e.created_at = r.referenced_at ∧ e.info1 = Val.vn X.number) ∧
    (∀ refs m, (∀ p ∈ refs, p.1 ≠ m.number) → backfillIssue refs m = m) := by
  constructor
  · intro raw out X r h hX hr m hmem hnum
    rcases processIssues_some h with ⟨ms, d, hm, hd, hmap⟩
    rcases merge_issue_events_some hm with ⟨prs, hprs, hms⟩
    have hX0 : reformatIssue0 X ∈ reformat_issues raw := List.mem_map_of_mem _ hX
    rcases optMapM_mem hprs hX0 with ⟨pX, hpX, hmX⟩
    rcases mergeIssue_refs hmX with ⟨hrefs, hnumX⟩
    have hpair : (r.number, mkReferencedBy X.number r) ∈ pX.2 := by
      rw [hrefs]
      exact List.mem_map.mpr ⟨r, hr, rfl⟩
    have hglobal : (r.number, mkReferencedBy X.number r) ∈ (prs.map (fun q => q.2)).flatten :=
      List.mem_flatten.mpr ⟨pX.2, List.mem_map_of_mem _ hpX, hpair⟩
    rcases optMapM_mem_rev hmap hmem with ⟨mi, hmi, href⟩
    rcases reformatIssue_some href with ⟨st1, out1, syn1, st2, out2, syn2, h1, h2, hnum2, hevs⟩
    have hminum : mi.number = r.number := by
      rw [← hnum2]
      exact hnum
    rw [hms] at hmi
    rcases List.mem_map.mp hmi with ⟨p, hp, hpeq⟩
    have hevmem : mkReferencedBy X.number r ∈ mi.eventsList := by
      rw [← hpeq]
      refine backfillIssue_mem hglobal ?_
      show p.1.number = r.number
      have hbn : (backfillIssue ((prs.map (fun q => q.2)).flatten) p.1).number = p.1.number := rfl
      rw [← hbn, hpeq]
      exact hminum
    rcases runEvents_mem h1 hevmem with ⟨st0, st1b, e1, syn1b, hstep, hout⟩
    have hfields := stepEvent_referenced_by rfl hstep
    refine ⟨resolveAlias st2.resolution e1, ?_, ?_, ?_, ?_⟩
    · rw [hevs]
      exact (mem_sortLe _ _ _).mpr (List.mem_map_of_mem _ (List.mem_append_left _ hout))
    · rw [(resolveAlias_fields _ _).1, hfields.1]
    · rw [(resolveAlias_fields _ _).2.1, hfields.2.1]
      rfl
    · rw [(resolveAlias_fields _ _).2.2.1, hfields.2.2]
      rfl
  · intro refs m hnone
    exact backfillIssue_unchanged hnone

theorem c8_backfill_witness :
    (((processIssues [c8X, c8Y]).getD []).map (fun m => m.number) = [1, 2]) ∧
    (∃ e ∈ (((processIssues [c8X, c8Y]).getD []).getD 1 mIssueDefault).eventsList,
      e.event = "referenced_by" ∧
      e.created_at = c8Rel.referenced_at ∧ e.info1 = Val.vn c8X.number) :=
  ⟨by decide,
   c8_backfill.1 [c8X, c8Y] ((processIssues [c8X, c8Y]).getD []) c8X c8Rel
     (by decide) (by decide) (by decide)
     (((processIssues [c8X, c8Y]).getD []).getD 1 mIssueDefault) (by decide) (by decide)⟩

/-- C1 (code bug): on `c1In` (comment by bob at time 1, resolution label
"fixed" added at time 2) the run succeeds and the output timeline is
[creation comment@0, created@0, comment@1, labeled@2, resolution_updated@2],
yet the comment at time 1 is stamped with resolution snapshot ["fixed"]
although NO state_updated/resolution_updated event precedes it: the
cumulative effect of the strictly-earlier events is the empty list.  The
code's own comment (lines 606-607) says the stamp is the resolution "when
the comment was written"; the stamp actually aliases the issue's mutable
resolution list, whose serialized value is the END-of-run resolution. -/
theorem c1_comment_snapshot_is_final_resolution :
    (processIssues [c1In]).isSome = true ∧
    ((outEvents (processIssues [c1In])).getD 2 baseEvent).event = "commented" ∧
    ((outEvents (processIssues [c1In])).getD 2 baseEvent).created_at = some 1 ∧
    ((outEvents (processIssues [c1In])).getD 2 baseEvent).info2 = Val.vl ["fixed"] ∧
    ((outEvents (processIssues [c1In])).take 2).filter
      (fun e => decide (e.event = "resolution_updated")) = [] ∧
    ((outEvents (processIssues [c1In])).take 2).filter
      (fun e => decide (e.event = "state_updated")) = [] := by decide

/-- C3 counterexample: on `c3In` (closed at 2, reopened at 3, closed at 4)
the second `closed` event is rewritten with event_info_2 = "open", although
the running state right before it (replaying the first four events of the
merged timeline with the code's own step function) is "reopened" — the old
state is hardcoded, not the previous running state. -/
theorem c3_counterexample :
    ((outEvents (processIssues [c3In])).getD 4 baseEvent).event = "state_updated" ∧
    ((outEvents (processIssues [c3In])).getD 4 baseEvent).created_at = some 4 ∧
    ((outEvents (processIssues [c3In])).getD 4 baseEvent).info2 = Val.vs "open" ∧
    c3StateBefore = "reopened" ∧
    Val.vs "open" ≠ Val.vs "reopened" := by decide

/-- C3 (corrected): a `closed` event makes the running state `closed` and is
rewritten to `state_updated` with event_info_1 = "closed"; but event_info_2
is ALWAYS the literal "open" (line 532), regardless of the previous running
state. -/
theorem c3_closed_amended (d : UserDict) (st : IState) (e : Event)
    (st2 : IState) (e2 : Event) (syn : List Event)
    (hk : e.event = "closed") (h : stepEvent d st e = some (st2, e2, syn)) :
    st2.state_new = "closed" ∧ e2.event = "state_updated" ∧
    e2.info1 = Val.vs "closed" ∧ e2.info2 = Val.vs "open" ∧ syn = [] := by
  unfold stepEvent at h
  split at h
  · cases h
  · split at h
    · cases h
    · dsimp only at h
      rw [hk] at h
      simp only [String.reduceEq, if_false, if_true, reduceIte] at h
      cases h
      exact ⟨rfl, rfl, rfl, rfl, rfl⟩

theorem c3_closed_amended_witness :
    stepEvent sampleDict sampleState c3Ev = some c3StepOut ∧
    c3StepOut.1.state_new = "closed" ∧ c3StepOut.2.1.event = "state_updated" ∧
    c3StepOut.2.1.info1 = Val.vs "closed" ∧ c3StepOut.2.1.info2 = Val.vs "open" := by
  have heq : stepEvent sampleDict sampleState c3Ev = some c3StepOut := by decide
  have h := c3_closed_amended sampleDict sampleState c3Ev c3StepOut.1 c3StepOut.2.1 c3StepOut.2.2
    rfl heq
  exact ⟨heq, h.1, h.2.1, h.2.2.1, h.2.2.2.1⟩

theorem collisionRewrite_eq {cm ev : Event} {A B : User}
    (hk : ev.event = "mentioned" ∨ ev.event = "subscribed")
    (hcm : cm.event = "commented") (hA : cm.user = some A) (hB : ev.user = some B) :
    collisionRewrite cm ev = { ev with ref_target := RefTarget.usr B, user := some A } := by
  unfold collisionRewrite
  rw [if_pos ⟨hk, hcm⟩, hB, hA]

/-- C7: a `mentioned`/`subscribed` event whose timestamp hits a cached
comment exactly, or whose timestamp minus the one-second tracker tolerance
hits one, is rewritten during event adjustment so that its actor becomes
the comment's author A and its ref target becomes the event's original
actor B (and the later adjustment sub-steps leave it alone). -/
theorem c7_mention_rewrite (c : Cache) (reviews : List Event) (e cm : Event) (A B : User)
    (hk : e.event = "mentioned" ∨ e.event = "subscribed")
    (hcm : cm.event = "commented") (hA : cm.user = some A) (hB : e.user = some B)
    (hhit : cacheLookup c e.created_at = some cm ∨
      (cacheLookup c e.created_at = none ∧
        ∃ t, e.created_at = some t ∧ cacheLookup c (some (t - 1)) = some cm)) :
    ∃ rv ev, adjustEvent c reviews e = some (rv, ev) ∧
      ev.user = some A ∧ ev.ref_target = RefTarget.usr B ∧ ev.event = e.event := by
  have hcr : collisionRewrite cm { e with ref_target := RefTarget.empty } =
      { e with ref_target := RefTarget.usr B, user := some A } :=
    collisionRewrite_eq hk hcm hA hB
  have hcoll : adjustCollision c { e with ref_target := RefTarget.empty } =
      some { e with ref_target := RefTarget.usr B, user := some A } := by
    unfold adjustCollision
    dsimp only
    rcases hhit with hhit | ⟨hmiss, t, ht, hhit⟩
    · rw [hhit]
      dsimp only
      rw [hcr]
    · rw [hmiss]
      dsimp only
      rw [ht] at hcr ⊢
      dsimp only
      rw [hhit]
      dsimp only
      rw [hcr]
  unfold adjustEvent
  dsimp only
  rw [hcoll]
  dsimp only
  rcases hk with hk | hk
  · rw [hk, if_neg (show ¬("mentioned" : String) = "referenced" by decide)]
    dsimp only
    rw [if_neg (show ¬(("mentioned" : String) = "review_requested" ∨
      ("mentioned" : String) = "review_request_removed") by decide)]
    dsimp only
    rw [if_neg (show ¬("mentioned" : String) = "review_dismissed" by decide)]
    rw [if_neg (show ¬(("mentioned" : String) = "assigned" ∨
      ("mentioned" : String) = "unassigned") by decide)]
    exact ⟨reviews, _, rfl, rfl, rfl, rfl⟩
  · rw [hk, if_neg (show ¬("subscribed" : String) = "referenced" by decide)]
    dsimp only
    rw [if_neg (show ¬(("subscribed" : String) = "review_requested" ∨
      ("subscribed" : String) = "review_request_removed") by decide)]
    dsimp only
    rw [if_neg (show ¬("subscribed" : String) = "review_dismissed" by decide)]
    rw [if_neg (show ¬(("subscribed" : String) = "assigned" ∨
      ("subscribed" : String) = "unassigned") by decide)]
    exact ⟨reviews, _, rfl, rfl, rfl, rfl⟩

theorem c7_mention_rewrite_witness :
    ∃ rv ev, adjustEvent c7Cache [] c7Event = some (rv, ev) ∧
      ev.user = some (mkUser "bob") ∧ ev.ref_target = RefTarget.usr (mkUser "carol") ∧
      ev.event = c7Event.event :=
  c7_mention_rewrite c7Cache [] c7Event c7Comment (mkUser "bob") (mkUser "carol")
    (Or.inl rfl) rfl rfl rfl (Or.inl (by decide))

/-- C9: during event re-formatting, an `unlabeled` event whose lower-cased
label is in the known type (resp. resolution) vocabulary but absent from the
running type (resp. resolution) list makes `list.remove` raise ValueError and
the whole pass abort; the removal branch succeeds exactly when the label is
currently present (i.e. a matching `labeled` event was applied earlier), and
a step failure aborts the remaining event loop. -/
theorem c9_unlabeled_value_error (d : UserDict) (st : IState) (e : Event)
    (hk : e.event = "unlabeled")
    (hu : ∃ u0 u1, e.user = some u0 ∧ lookup_user d u0 = some u1)
    (hrt : e.ref_target = RefTarget.empty) :
    (strToLower e.label ∈ known_types → strToLower e.label ∉ st.type →
      stepEvent d st e = none) ∧
    (strToLower e.label ∉ known_types → strToLower e.label ∈ known_resolutions →
      strToLower e.label ∉ st.resolution → stepEvent d st e = none) ∧
    (strToLower e.label ∈ known_types → strToLower e.label ∈ st.type →
      (stepEvent d st e).isSome = true) ∧
    (∀ st0 rest, stepEvent d st0 e = none → runEvents d st0 (e :: rest) = none) := by
  rcases hu with ⟨u0, u1, hu0, hu1⟩
  refine ⟨?_, ?_, ?_, ?_⟩
  · intro hmem habs
    unfold stepEvent
    rw [hu0]
    dsimp only
    rw [hu1]
    dsimp only
    rw [hrt]
    dsimp only
    rw [hk]
    simp only [String.reduceEq, if_false, reduceIte]
    rw [if_pos hmem, removeFirst_eq_none.mpr habs]
  · intro hmem1 hmem2 habs
    unfold stepEvent
    rw [hu0]
    dsimp only
    rw [hu1]
    dsimp only
    rw [hrt]
    dsimp only
    rw [hk]
    simp only [String.reduceEq, if_false, reduceIte]
    rw [if_neg hmem1, if_pos hmem2, removeFirst_eq_none.mpr habs]
  · intro hmem hpres
    unfold stepEvent
    rw [hu0]
    dsimp only
    rw [hu1]
    dsimp only
    rw [hrt]
    dsimp only
    rw [hk]
    simp only [String.reduceEq, if_false, reduceIte]
    rw [if_pos hmem]
    cases hrf : removeFirst st.type (strToLower e.label) with
    | none => exact absurd hpres (removeFirst_eq_none.mp hrf)
    | some ty => rfl
  · intro st0 rest hnone
    rw [runEvents, hnone]

theorem c9_unlabeled_value_error_witness :
    stepEvent sampleDict sampleState c9Event = none ∧
    runEvents sampleDict sampleState [c9Event] = none := by
  have h := c9_unlabeled_value_error sampleDict sampleState c9Event rfl
    ⟨mkUser "carol", mkUser "carol", rfl, by decide⟩ rfl
  have h1 : stepEvent sampleDict sampleState c9Event = none :=
    h.1 (by decide) (by decide)
  exact ⟨h1, h.2.2.2 sampleState [] h1⟩

end Codeface
